import Mathlib

/-!
Shallow embedding of the Ghost CMS storage adapter for Google Cloud Storage
(source: src/index.ts, class GStore, plus src/types.ts).

Modelling conventions:
- JavaScript strings are Lean `String`; a JS `Buffer` is a `List Nat` of bytes.
- Optional configuration fields are `Option`; `x ?? d` (nullish coalescing)
  is `Option.getD`, and JS truthiness on a string-valued field (`!x`,
  `x || d`, `x ? a : b`) treats both the missing value and the empty string
  as falsy, which is embedded by dedicated helpers below.
- The TypeScript type declares `bucket` as required, but at runtime the
  constructor guards against a missing value (the unit tests pass an empty
  object), so `bucket` is modelled as `Option String`.
- External collaborators are parameters: the result of the delegated
  `getUniqueFileName` is an argument of `save`; the platform `path.join` and
  the storage client calls (`upload`, `file(...).exists`, `file(...).delete`,
  `createReadStream`) are function arguments, so theorems hold for every
  behaviour of those collaborators.
- Promise resolution/rejection of a delegated call is `Except`.
-/

/-- The `maxAge` configuration field has TypeScript type `number | string`. -/
inductive MaxAge where
  | num (n : Int)
  | str (s : String)
deriving Repr, DecidableEq

/-- Stringification of `maxAge` as the template literal in `save` performs it. -/
def renderMaxAge : MaxAge → String
  | .num n => toString n
  | .str s => s

/-- Configuration object `GStoreConfig` from src/types.ts. All optional
fields default to absent; `bucket` is declared required but can be missing at
runtime, hence `Option`. -/
structure GStoreConfig where
  projectId : Option String := none
  key : Option String := none
  bucket : Option String := none
  assetDomain : Option String := none
  insecure : Option Bool := none
  maxAge : Option MaxAge := none
  uniformBucketLevelAccess : Option Bool := none
deriving Repr, DecidableEq

/-- JS truthiness of a possibly-missing string: `undefined` and `""` are
falsy, every other string is truthy. -/
def jsTruthyStr : Option String → Bool
  | none => false
  | some s => !s.isEmpty

/-- JS `x || d` for a possibly-missing string `x`: the default is taken when
`x` is missing or empty. -/
def jsStringOr (x : Option String) (dflt : String) : String :=
  match x with
  | some s => if s.isEmpty then dflt else s
  | none => dflt

/-- The constructor throws a plain `Error` when the bucket is missing; the
spec names this failure class `ConfigurationError`. -/
inductive AdapterError where
  | configurationError (msg : String)
deriving Repr, DecidableEq

/-- Adapter instance state after a successful construction: the private
fields of class `GStore`. `bucketHandle` stands for `this.bucket`, the handle
obtained from `gcs.bucket(config.bucket)`. -/
structure GStore where
  bucketHandle : String
  assetDomain : String
  insecure : Bool
  maxAge : MaxAge
  uniformBucketLevelAccess : Bool
  config : GStoreConfig
deriving Repr, DecidableEq

/-- The `GStore` constructor: guard `if (!config.bucket) throw ...`, then
store the raw config, derive the bucket handle, and apply the defaults
`config.assetDomain || bucket + ".storage.googleapis.com"`,
`config.insecure ?? false`, `config.maxAge ?? 2678400`,
`config.uniformBucketLevelAccess ?? false`. -/
def mkGStore (config : GStoreConfig) : Except AdapterError GStore :=
  if !jsTruthyStr config.bucket then
    .error (.configurationError "Google Cloud Storage bucket is required")
  else
    let b := config.bucket.getD ""
    .ok
      { bucketHandle := b
        assetDomain := jsStringOr config.assetDomain (b ++ ".storage.googleapis.com")
        insecure := config.insecure.getD false
        maxAge := config.maxAge.getD (.num 2678400)
        uniformBucketLevelAccess := config.uniformBucketLevelAccess.getD false
        config := config }

/-- `getBaseUrl()`: protocol from the insecure flag, then the stored asset
domain, then a trailing slash. -/
def GStore.getBaseUrl (g : GStore) : String :=
  (if g.insecure then "http" else "https") ++ "://" ++ g.assetDomain ++ "/"

/-- `getConfig()`: returns the stored configuration object unchanged. -/
def GStore.getConfig (g : GStore) : GStoreConfig := g.config

/-- Character-level effect of the regex replace `/\\/g` with `/`. -/
def normalizeChar (c : Char) : Char := if c = '\\' then '/' else c

/-- `normalizePathForGCS(filePath)`: `filePath.replace(/\\/g, '/')`, i.e.
every backslash character becomes a forward slash. -/
def normalizePathForGCS (filePath : String) : String :=
  ⟨filePath.data.map normalizeChar⟩

/-- The `metadata` field of the upload options built by `save`. -/
structure UploadMetadata where
  cacheControl : String
deriving Repr, DecidableEq

/-- The options object `opts` that `save` passes to `bucket.upload`. The
`public` field is optional: absent unless set. -/
structure UploadOptions where
  destination : String
  metadata : UploadMetadata
  «public» : Option Bool := none
deriving Repr, DecidableEq

/-- `save(image)`: the delegated `getUniqueFileName(image, targetDir)` result
is the parameter `uniqueFileName`. The method normalizes it, builds the
upload options (cache-control metadata; `public: true` only when uniform
bucket-level access is off), uploads, and returns `baseUrl + targetFilename`.
The returned pair is (options passed to `bucket.upload`, returned URL). -/
def GStore.save (g : GStore) (uniqueFileName : String) : UploadOptions × String :=
  let targetFilename := normalizePathForGCS uniqueFileName
  let baseUrl := g.getBaseUrl
  let opts0 : UploadOptions :=
    { destination := targetFilename
      metadata := { cacheControl := "public, max-age=" ++ renderMaxAge g.maxAge } }
  let opts := if !g.uniformBucketLevelAccess then { opts0 with «public» := some true } else opts0
  (opts, baseUrl ++ targetFilename)

/-- `exists(filename, targetDir?)`: builds
`normalizePathForGCS(targetDir ? path.join(targetDir, filename) : filename)`
and returns the boolean from `bucket.file(filePath).exists()` unchanged.
`join` is the platform `path.join`; `query bucket path` is the storage
client existence call, resolving to the destructured boolean or rejecting. -/
def GStore.exists {ε : Type} (g : GStore) (join : String → String → String)
    (query : String → String → Except ε Bool)
    (filename : String) (targetDir : Option String) : Except ε Bool :=
  let filePath := normalizePathForGCS
    (if jsTruthyStr targetDir then join (targetDir.getD "") filename else filename)
  query g.bucketHandle filePath

/-- `delete(filename, targetDir?)`: same path construction as `exists`, then
`await bucket.file(filePath).delete()` and `return true`. A rejection of the
delegated call propagates (the `await` rethrows). -/
def GStore.delete {ε : Type} (g : GStore) (join : String → String → String)
    (del : String → String → Except ε Unit)
    (filename : String) (targetDir : Option String) : Except ε Bool :=
  let filePath := normalizePathForGCS
    (if jsTruthyStr targetDir then join (targetDir.getD "") filename else filename)
  match del g.bucketHandle filePath with
  | .ok _ => .ok true
  | .error e => .error e

/-- Argument of `read`, from src/types.ts. -/
structure ReadOptions where
  path : String
deriving Repr, DecidableEq

/-- One event emitted by the read stream: a data chunk, an error, or the
terminal `end` event. -/
inductive StreamEvent (ε : Type) where
  | data (chunk : List Nat)
  | error (e : ε)
  | ended
deriving Repr, DecidableEq

/-- Settlement of the promise returned by `read`. -/
inductive ReadOutcome (ε : Type) where
  | resolved (buf : List Nat)
  | rejected (e : ε)
deriving Repr, DecidableEq

/-- The event handlers of `read` folded over the emitted events. `contents`
starts `null` (`none`); a data chunk either initializes it or is appended via
`Buffer.concat`; the first `error` event rejects; the first `end` event
resolves `contents || Buffer.alloc(0)` (a JS Buffer is truthy even when
empty, so only the `null` state takes the empty default). `none` means the
promise never settles (no terminal event was emitted). -/
def readLoop {ε : Type} (contents : Option (List Nat)) :
    List (StreamEvent ε) → Option (ReadOutcome ε)
  | [] => none
  | .data d :: rest =>
      readLoop (some (match contents with | none => d | some c => c ++ d)) rest
  | .error e :: _ => some (.rejected e)
  | .ended :: _ => some (.resolved (match contents with | none => [] | some c => c))

/-- `read(options)`: opens a read stream on `options.path` and buffers it.
`createReadStream` maps a path to the event sequence the stream emits. -/
def GStore.read {ε : Type} (g : GStore)
    (createReadStream : String → List (StreamEvent ε))
    (options : ReadOptions) : Option (ReadOutcome ε) :=
  let _ := g.bucketHandle
  readLoop none (createReadStream options.path)

/-- Boolean check used to state that a client-facing path has no backslash. -/
def hasBackslash (s : String) : Bool :=
  s.data.any (fun c => c = '\\')

/-- Number of consecutive `/` characters at the end of a string. -/
def trailingSlashCount (s : String) : Nat :=
  (s.data.reverse.takeWhile (fun c => c = '/')).length

/-! ## Helper lemmas -/

/-- Inversion of a successful construction: the bucket field was a truthy
(non-empty) string and every instance field is determined by the
configuration exactly as the constructor computes it. -/
theorem mkGStore_ok_inv {cfg : GStoreConfig} {g : GStore}
    (h : mkGStore cfg = .ok g) :
    ∃ b, cfg.bucket = some b ∧ b ≠ "" ∧
      g = { bucketHandle := b
            assetDomain := jsStringOr cfg.assetDomain (b ++ ".storage.googleapis.com")
            insecure := cfg.insecure.getD false
            maxAge := cfg.maxAge.getD (.num 2678400)
            uniformBucketLevelAccess := cfg.uniformBucketLevelAccess.getD false
            config := cfg } := by
  simp only [mkGStore] at h
  split at h
  · simp at h
  · rename_i hb
    cases hcb : cfg.bucket with
    | none => rw [hcb] at hb; simp [jsTruthyStr] at hb
    | some b =>
      rw [hcb] at hb h
      refine ⟨b, rfl, ?_, ?_⟩
      · intro hbe
        subst hbe
        simp [jsTruthyStr] at hb
        exact absurd hb (by decide)
      · injection h with h
        simp at h
        exact h.symm

/-- The normalized path contains no backslash character. -/
theorem hasBackslash_normalize (s : String) :
    hasBackslash (normalizePathForGCS s) = false := by
  simp only [hasBackslash, normalizePathForGCS, List.any_map, List.any_eq_false,
    Function.comp]
  intro c _
  by_cases hc : c = '\\'
  · subst hc
    decide
  · simp [normalizeChar, hc]

/-- The destination of the upload options built by `save` is exactly the
normalized unique filename, whatever the uniform-access setting. -/
theorem save_destination (g : GStore) (u : String) :
    (g.save u).1.destination = normalizePathForGCS u := by
  simp only [GStore.save]
  split <;> rfl

/-- The return value of `save` is independent of the uniform-access branch. -/
theorem save_snd (g : GStore) (u : String) :
    (g.save u).2 = g.getBaseUrl ++ normalizePathForGCS u := by
  simp only [GStore.save]

/-- The cache-control metadata of the upload options built by `save`. -/
theorem save_cacheControl (g : GStore) (u : String) :
    (g.save u).1.metadata.cacheControl = "public, max-age=" ++ renderMaxAge g.maxAge := by
  simp only [GStore.save]
  split <;> rfl

/-- Folding the read handlers over a prefix of data events accumulates the
concatenation of the chunks. -/
theorem readLoop_data_accum {ε : Type} (chunks : List (List Nat))
    (acc : List Nat) (rest : List (StreamEvent ε)) :
    readLoop (some acc) (chunks.map .data ++ rest) =
      readLoop (some (acc ++ chunks.flatten)) rest := by
  induction chunks generalizing acc with
  | nil => simp [readLoop]
  | cons c cs ih =>
    simp only [List.map_cons, List.cons_append, readLoop, List.flatten_cons,
      List.append_eq]
    rw [ih, List.append_assoc]

/-- A stream emitting data chunks and then ending resolves to the
concatenation of the chunks. -/
theorem readLoop_data_ended {ε : Type} (chunks : List (List Nat)) :
    readLoop (none : Option (List Nat))
        ((chunks.map .data ++ [.ended]) : List (StreamEvent ε)) =
      some (.resolved chunks.flatten) := by
  cases chunks with
  | nil => simp [readLoop]
  | cons c cs =>
    simp only [List.map_cons, List.cons_append, readLoop, List.append_eq]
    rw [readLoop_data_accum]
    simp [readLoop]

/-- A stream emitting data chunks and then an error rejects with that error. -/
theorem readLoop_data_error {ε : Type} (chunks : List (List Nat)) (e : ε) :
    readLoop (none : Option (List Nat))
        ((chunks.map .data ++ [.error e]) : List (StreamEvent ε)) =
      some (.rejected e) := by
  cases chunks with
  | nil => simp [readLoop]
  | cons c cs =>
    simp only [List.map_cons, List.cons_append, readLoop, List.append_eq]
    rw [readLoop_data_accum]
    simp [readLoop]

/-- A non-empty string has a non-empty character list. -/
theorem data_ne_nil_of_ne_empty {s : String} (h : s ≠ "") : s.data ≠ [] := by
  intro hnil
  apply h
  cases s with
  | mk l =>
    simp only at hnil
    subst hnil
    decide

/-- The JS `||` default for the asset domain never yields the empty string
when the fallback is non-empty. -/
theorem jsStringOr_data_ne_nil (x : Option String) (d : String)
    (hd : d.data ≠ []) : (jsStringOr x d).data ≠ [] := by
  cases x with
  | none => exact hd
  | some s =>
    by_cases hs : s.isEmpty = true
    · simp only [jsStringOr]
      rw [if_pos hs]
      exact hd
    · simp only [jsStringOr]
      rw [if_neg hs]
      intro hnil
      apply hs
      rw [String.isEmpty_iff]
      apply String.ext
      rw [hnil]

/-- A string of the shape `x ++ "/"` ends in a slash. -/
theorem data_getLast_append_slash (x : String) :
    (x ++ "/").data.getLast? = some '/' := by
  rw [String.data_append]
  rw [show ("/" : String).data = ['/'] from rfl]
  exact List.getLast?_concat _

/-- Counting trailing slashes of `l ++ (m ++ ['/'])` when `m` is non-empty
and does not itself end in a slash. -/
theorem takeWhile_slash_length (l m : List Char)
    (hne : m ≠ []) (hlast : m.getLast? ≠ some '/') :
    ((l ++ (m ++ ['/'])).reverse.takeWhile (fun c => c = '/')).length = 1 := by
  cases hrev : m.reverse with
  | nil => exact absurd (List.reverse_eq_nil_iff.mp hrev) hne
  | cons a t =>
    have ha : m.getLast? = some a := by
      rw [← List.head?_reverse, hrev]
      rfl
    have ha' : ¬(a = '/') := by
      intro h
      subst h
      exact hlast ha
    have hshape : (l ++ (m ++ ['/'])).reverse = '/' :: (m.reverse ++ l.reverse) := by
      simp [List.reverse_append]
    rw [hshape, hrev]
    simp [List.takeWhile_cons, ha']

/-- Trailing-slash count of `(x ++ dom) ++ "/"` for a suitable domain. -/
theorem trailingSlashCount_append (x dom : String)
    (hne : dom.data ≠ []) (hlast : dom.data.getLast? ≠ some '/') :
    trailingSlashCount ((x ++ dom) ++ "/") = 1 := by
  unfold trailingSlashCount
  rw [String.data_append, String.data_append]
  rw [show ("/" : String).data = ['/'] from rfl]
  rw [List.append_assoc]
  exact takeWhile_slash_length _ _ hne hlast

/-! ## Concrete fixtures used by witnesses and counterexamples -/

/-- A minimal valid configuration. -/
def sampleCfg : GStoreConfig := { bucket := some "b" }

/-- The adapter instance `mkGStore sampleCfg` produces. -/
def sampleStore : GStore :=
  { bucketHandle := "b"
    assetDomain := "b.storage.googleapis.com"
    insecure := false
    maxAge := .num 2678400
    uniformBucketLevelAccess := false
    config := sampleCfg }

/-- Sanity: the constructor on the minimal configuration yields the fixture. -/
theorem mkGStore_sampleCfg : mkGStore sampleCfg = .ok sampleStore := rfl

/-- A second fixture: uniform bucket-level access enabled. -/
def uniformCfg : GStoreConfig :=
  { bucket := some "b", uniformBucketLevelAccess := some true }

/-- The adapter instance `mkGStore uniformCfg` produces. -/
def uniformStore : GStore :=
  { bucketHandle := "b"
    assetDomain := "b.storage.googleapis.com"
    insecure := false
    maxAge := .num 2678400
    uniformBucketLevelAccess := true
    config := uniformCfg }

/-! ## Claim theorems -/

/-- C1: for every successful save, the returned string equals the base URL
produced by getBaseUrl concatenated with the unique object name after all
path separators are normalized to forward slashes, and the upload options
carry cache-control metadata exactly the string "public, max-age=" followed
by the configured maxAge, which defaults to 2678400. -/
theorem save_url_and_cache_control (cfg : GStoreConfig) (g : GStore)
    (u : String) (h : mkGStore cfg = .ok g) :
    (g.save u).2 = g.getBaseUrl ++ normalizePathForGCS u ∧
    (g.save u).1.metadata.cacheControl =
      "public, max-age=" ++ renderMaxAge (cfg.maxAge.getD (.num 2678400)) := by
  obtain ⟨b, hb, hne, rfl⟩ := mkGStore_ok_inv h
  exact ⟨save_snd _ u, save_cacheControl _ u⟩

/-- Witness for C1 at the minimal configuration and a backslashed name. -/
theorem save_url_and_cache_control_witness :
    (sampleStore.save "2024\\01\\a.jpg").2 =
      sampleStore.getBaseUrl ++ normalizePathForGCS "2024\\01\\a.jpg" ∧
    (sampleStore.save "2024\\01\\a.jpg").1.metadata.cacheControl =
      "public, max-age=" ++ renderMaxAge (sampleCfg.maxAge.getD (.num 2678400)) :=
  save_url_and_cache_control sampleCfg sampleStore "2024\\01\\a.jpg" rfl

/-- C5: the upload options of save have the public-read flag set iff the
effective uniformBucketLevelAccess (default false) is false; when it is true
the public field is absent from the options. -/
theorem save_public_flag (cfg : GStoreConfig) (g : GStore) (u : String)
    (h : mkGStore cfg = .ok g) :
    ((g.save u).1.public = some true ↔
      cfg.uniformBucketLevelAccess.getD false = false) ∧
    (cfg.uniformBucketLevelAccess.getD false = true →
      (g.save u).1.public = none) := by
  obtain ⟨b, hb, hne, rfl⟩ := mkGStore_ok_inv h
  cases hub : cfg.uniformBucketLevelAccess.getD false <;>
    simp [GStore.save, hub]

/-- Witness for C5: flag present by default, absent under uniform access. -/
theorem save_public_flag_witness :
    (sampleStore.save "a.jpg").1.public = some true ∧
    (uniformStore.save "a.jpg").1.public = none :=
  ⟨(save_public_flag sampleCfg sampleStore "a.jpg" rfl).1.mpr rfl,
   (save_public_flag uniformCfg uniformStore "a.jpg" rfl).2 rfl⟩

/-- C3 (amended): getConfig returns the configuration object unchanged, so
every supplied field is returned as supplied and every omitted field is
returned still absent; the documented defaults (insecure=false,
maxAge=2678400, uniformBucketLevelAccess=false) are applied to the effective
instance fields, not to the object getConfig returns. -/
theorem getConfig_raw_and_effective_defaults (cfg : GStoreConfig) (g : GStore)
    (h : mkGStore cfg = .ok g) :
    g.getConfig = cfg ∧
    g.insecure = cfg.insecure.getD false ∧
    g.maxAge = cfg.maxAge.getD (.num 2678400) ∧
    g.uniformBucketLevelAccess = cfg.uniformBucketLevelAccess.getD false := by
  obtain ⟨b, hb, hne, rfl⟩ := mkGStore_ok_inv h
  exact ⟨rfl, rfl, rfl, rfl⟩

/-- Witness for the amended C3 at the minimal configuration. -/
theorem getConfig_raw_and_effective_defaults_witness :
    sampleStore.getConfig = sampleCfg ∧
    sampleStore.insecure = sampleCfg.insecure.getD false ∧
    sampleStore.maxAge = sampleCfg.maxAge.getD (.num 2678400) ∧
    sampleStore.uniformBucketLevelAccess =
      sampleCfg.uniformBucketLevelAccess.getD false :=
  getConfig_raw_and_effective_defaults sampleCfg sampleStore rfl

/-- C3 counterexample: the claim that getConfig returns omitted optional
fields with their documented defaults is false: on the minimal configuration
the omitted insecure field is returned absent, not as false. -/
theorem getConfig_defaults_counterexample :
    ¬ (∀ (cfg : GStoreConfig) (g : GStore), mkGStore cfg = .ok g →
        (∀ x, cfg.bucket = some x → g.getConfig.bucket = some x) ∧
        (∀ x, cfg.key = some x → g.getConfig.key = some x) ∧
        (∀ x, cfg.projectId = some x → g.getConfig.projectId = some x) ∧
        (∀ x, cfg.assetDomain = some x → g.getConfig.assetDomain = some x) ∧
        (∀ x, cfg.insecure = some x → g.getConfig.insecure = some x) ∧
        (∀ x, cfg.maxAge = some x → g.getConfig.maxAge = some x) ∧
        (∀ x, cfg.uniformBucketLevelAccess = some x →
          g.getConfig.uniformBucketLevelAccess = some x) ∧
        (cfg.insecure = none → g.getConfig.insecure = some false) ∧
        (cfg.maxAge = none → g.getConfig.maxAge = some (.num 2678400)) ∧
        (cfg.uniformBucketLevelAccess = none →
          g.getConfig.uniformBucketLevelAccess = some false)) := by
  intro hcl
  have h := (hcl sampleCfg sampleStore rfl).2.2.2.2.2.2.2.1 rfl
  simp [GStore.getConfig, sampleStore, sampleCfg] at h

/-- C7: construction fails with the ConfigurationError exactly on a missing
or empty bucket identifier; in that case no adapter value (hence no bucket
handle) is produced, and any non-empty bucket yields an adapter whose handle
is that bucket. -/
theorem constructor_bucket_required (cfg : GStoreConfig) :
    ((cfg.bucket = none ∨ cfg.bucket = some "") →
      mkGStore cfg =
        .error (.configurationError "Google Cloud Storage bucket is required")) ∧
    (∀ b, cfg.bucket = some b → b ≠ "" →
      ∃ g, mkGStore cfg = .ok g ∧ g.bucketHandle = b) := by
  constructor
  · rintro (hb | hb)
    · simp [mkGStore, jsTruthyStr, hb]
    · simp [mkGStore, jsTruthyStr, hb]
      decide
  · intro b hb hne
    have hbe : b.isEmpty = false := by
      cases hcase : b.isEmpty with
      | false => rfl
      | true => exact absurd ((String.isEmpty_iff b).mp hcase) hne
    have ht : jsTruthyStr cfg.bucket = true := by
      rw [hb]
      simp [jsTruthyStr, hbe]
    refine ⟨{ bucketHandle := b
              assetDomain := jsStringOr cfg.assetDomain (b ++ ".storage.googleapis.com")
              insecure := cfg.insecure.getD false
              maxAge := cfg.maxAge.getD (.num 2678400)
              uniformBucketLevelAccess := cfg.uniformBucketLevelAccess.getD false
              config := cfg }, ?_, rfl⟩
    simp [mkGStore, ht, hb, jsTruthyStr, hbe]

/-- Witness for C7: missing bucket, empty bucket, and a valid bucket. -/
theorem constructor_bucket_required_witness :
    mkGStore {} =
      .error (.configurationError "Google Cloud Storage bucket is required") ∧
    mkGStore { bucket := some "" } =
      .error (.configurationError "Google Cloud Storage bucket is required") ∧
    ∃ g, mkGStore sampleCfg = .ok g ∧ g.bucketHandle = "b" :=
  ⟨(constructor_bucket_required {}).1 (Or.inl rfl),
   (constructor_bucket_required { bucket := some "" }).1 (Or.inr rfl),
   (constructor_bucket_required sampleCfg).2 "b" rfl (by decide)⟩

/-- C2 counterexample: the claim fails on two concrete configurations. With
assetDomain supplied as the empty string the base URL uses the
bucket-derived domain, not the supplied value; with assetDomain supplied as
a string ending in a slash the base URL ends in two slashes. -/
theorem getBaseUrl_claim_counterexample :
    (¬ (∀ (cfg : GStoreConfig) (g : GStore), mkGStore cfg = .ok g →
        g.getBaseUrl =
          (if cfg.insecure.getD false then "http" else "https") ++ "://" ++
            (match cfg.assetDomain with
             | some d => d
             | none => cfg.bucket.getD "" ++ ".storage.googleapis.com") ++ "/" ∧
        trailingSlashCount g.getBaseUrl = 1)) ∧
    (∃ g, mkGStore { bucket := some "b", assetDomain := some "cdn.example.com/" } =
        .ok g ∧
      trailingSlashCount g.getBaseUrl = 2) := by
  constructor
  · intro hcl
    have h := (hcl { bucket := some "b", assetDomain := some "" }
      { bucketHandle := "b"
        assetDomain := "b.storage.googleapis.com"
        insecure := false
        maxAge := .num 2678400
        uniformBucketLevelAccess := false
        config := { bucket := some "b", assetDomain := some "" } } rfl).1
    exact absurd h (by decide)
  · refine ⟨{ bucketHandle := "b"
              assetDomain := "cdn.example.com/"
              insecure := false
              maxAge := .num 2678400
              uniformBucketLevelAccess := false
              config := { bucket := some "b", assetDomain := some "cdn.example.com/" } },
      rfl, ?_⟩
    decide

/-- C2 (amended): the base URL is protocol ++ "://" ++ domain ++ "/", where
protocol is http iff the effective insecure flag is true, and domain is the
supplied assetDomain when that is a non-empty (JS-truthy) string and the
bucket-derived default otherwise; the URL always ends in a slash, and in
exactly one trailing slash whenever the effective domain does not itself end
in a slash. -/
theorem getBaseUrl_amended (cfg : GStoreConfig) (b : String) (g : GStore)
    (hb : cfg.bucket = some b) (h : mkGStore cfg = .ok g) :
    g.getBaseUrl =
      (if cfg.insecure.getD false then "http" else "https") ++ "://" ++
        jsStringOr cfg.assetDomain (b ++ ".storage.googleapis.com") ++ "/" ∧
    g.getBaseUrl.data.getLast? = some '/' ∧
    ((jsStringOr cfg.assetDomain (b ++ ".storage.googleapis.com")).data.getLast? ≠
        some '/' →
      trailingSlashCount g.getBaseUrl = 1) := by
  obtain ⟨b', hb', hne, rfl⟩ := mkGStore_ok_inv h
  rw [hb] at hb'
  injection hb' with hb'
  subst hb'
  have hshape : GStore.getBaseUrl
      { bucketHandle := b
        assetDomain := jsStringOr cfg.assetDomain (b ++ ".storage.googleapis.com")
        insecure := cfg.insecure.getD false
        maxAge := cfg.maxAge.getD (.num 2678400)
        uniformBucketLevelAccess := cfg.uniformBucketLevelAccess.getD false
        config := cfg } =
      (((if cfg.insecure.getD false then "http" else "https") ++ "://") ++
        jsStringOr cfg.assetDomain (b ++ ".storage.googleapis.com")) ++ "/" := by
    simp [GStore.getBaseUrl, String.append_assoc]
  refine ⟨rfl, ?_, ?_⟩
  · rw [hshape]
    exact data_getLast_append_slash _
  · intro hlast
    have hne' : (jsStringOr cfg.assetDomain (b ++ ".storage.googleapis.com")).data ≠ [] := by
      apply jsStringOr_data_ne_nil
      rw [String.data_append]
      intro hniln
      rcases List.append_eq_nil.mp hniln with ⟨h1, _⟩
      exact data_ne_nil_of_ne_empty hne h1
    rw [hshape]
    exact trailingSlashCount_append _ _ hne' hlast

/-- Witness for the amended C2 at the minimal configuration. -/
theorem getBaseUrl_amended_witness :
    sampleStore.getBaseUrl =
      (if sampleCfg.insecure.getD false then "http" else "https") ++ "://" ++
        jsStringOr sampleCfg.assetDomain ("b" ++ ".storage.googleapis.com") ++ "/" ∧
    sampleStore.getBaseUrl.data.getLast? = some '/' ∧
    trailingSlashCount sampleStore.getBaseUrl = 1 := by
  have h := getBaseUrl_amended sampleCfg "b" sampleStore rfl rfl
  exact ⟨h.1, h.2.1, h.2.2 (by decide)⟩

/-- C8: exists builds the object path by joining targetDir and filename when
targetDir is given (else filename alone), normalizes separators to forward
slashes, and resolves to exactly the boolean the existence query reports;
a query failure is propagated unchanged. -/
theorem exists_builds_path_and_delegates {ε : Type} (g : GStore)
    (join : String → String → String) (query : String → String → Except ε Bool)
    (filename : String) (targetDir : Option String) :
    g.exists join query filename targetDir =
      query g.bucketHandle (normalizePathForGCS
        (if jsTruthyStr targetDir then join (targetDir.getD "") filename
         else filename)) ∧
    (∀ b : Bool,
      query g.bucketHandle (normalizePathForGCS
        (if jsTruthyStr targetDir then join (targetDir.getD "") filename
         else filename)) = .ok b →
      g.exists join query filename targetDir = .ok b) ∧
    (∀ e : ε,
      query g.bucketHandle (normalizePathForGCS
        (if jsTruthyStr targetDir then join (targetDir.getD "") filename
         else filename)) = .error e →
      g.exists join query filename targetDir = .error e) :=
  ⟨rfl, fun _ hv => hv, fun _ he => he⟩

/-- Witness for C8: the delegated boolean and a delegated rejection. -/
theorem exists_builds_path_and_delegates_witness :
    sampleStore.exists (fun a bn => a ++ "/" ++ bn)
      (fun _ _ => (Except.ok true : Except Nat Bool)) "a.jpg" (some "2024\\01") =
      Except.ok true ∧
    sampleStore.exists (fun a bn => a ++ "/" ++ bn)
      (fun _ _ => (Except.error 7 : Except Nat Bool)) "a.jpg" none =
      Except.error 7 :=
  ⟨(exists_builds_path_and_delegates sampleStore _ _ "a.jpg" (some "2024\\01")).2.1
      true rfl,
   (exists_builds_path_and_delegates sampleStore _ _ "a.jpg" none).2.2 7 rfl⟩

/-- C9: delete resolves to true whenever the client delete succeeds, rejects
with exactly the client error otherwise, and never resolves to false. -/
theorem delete_true_or_propagates {ε : Type} (g : GStore)
    (join : String → String → String) (del : String → String → Except ε Unit)
    (filename : String) (targetDir : Option String) :
    (∀ u : Unit,
      del g.bucketHandle (normalizePathForGCS
        (if jsTruthyStr targetDir then join (targetDir.getD "") filename
         else filename)) = .ok u →
      g.delete join del filename targetDir = .ok true) ∧
    (∀ e : ε,
      del g.bucketHandle (normalizePathForGCS
        (if jsTruthyStr targetDir then join (targetDir.getD "") filename
         else filename)) = .error e →
      g.delete join del filename targetDir = .error e) ∧
    g.delete join del filename targetDir ≠ .ok false := by
  refine ⟨?_, ?_, ?_⟩
  · intro u hu
    simp [GStore.delete, hu]
  · intro e he
    simp [GStore.delete, he]
  · simp only [GStore.delete]
    split <;> simp

/-- Witness for C9: a succeeding and a failing delegated delete. -/
theorem delete_true_or_propagates_witness :
    sampleStore.delete (fun a bn => a ++ "/" ++ bn)
      (fun _ _ => (Except.ok () : Except Nat Unit)) "a.jpg" (some "2024/01") =
      Except.ok true ∧
    sampleStore.delete (fun a bn => a ++ "/" ++ bn)
      (fun _ _ => (Except.error 3 : Except Nat Unit)) "a.jpg" none =
      Except.error 3 :=
  ⟨(delete_true_or_propagates sampleStore _ _ "a.jpg" (some "2024/01")).1 () rfl,
   (delete_true_or_propagates sampleStore _ _ "a.jpg" none).2.1 3 rfl⟩

/-- C10: with targetDir equal to the empty string, exists and delete behave
exactly as with targetDir absent: the join with the empty directory is never
performed (the result does not depend on the join function at all) and the
path is the normalized filename alone. -/
theorem empty_targetDir_behaves_as_absent {ε : Type} (g : GStore)
    (join join2 : String → String → String)
    (query : String → String → Except ε Bool)
    (del : String → String → Except ε Unit) (filename : String) :
    g.exists join query filename (some "") = g.exists join2 query filename none ∧
    g.exists join query filename (some "") =
      query g.bucketHandle (normalizePathForGCS filename) ∧
    g.delete join del filename (some "") = g.delete join2 del filename none :=
  ⟨rfl, rfl, rfl⟩

/-- C4: read resolves to the byte-for-byte concatenation of the emitted
chunks in emission order; an immediately-ending stream yields the empty
buffer; an error emitted before completion rejects with exactly that error. -/
theorem read_concatenates_chunks {ε : Type} (g : GStore)
    (createReadStream : String → List (StreamEvent ε)) (options : ReadOptions)
    (chunks : List (List Nat)) (e : ε) :
    (createReadStream options.path = chunks.map .data ++ [.ended] →
      g.read createReadStream options = some (.resolved chunks.flatten)) ∧
    (createReadStream options.path = [.ended] →
      g.read createReadStream options = some (.resolved [])) ∧
    (createReadStream options.path = chunks.map .data ++ [.error e] →
      g.read createReadStream options = some (.rejected e)) := by
  refine ⟨?_, ?_, ?_⟩ <;> intro hs <;> simp only [GStore.read, hs]
  · exact readLoop_data_ended chunks
  · exact readLoop_data_ended []
  · exact readLoop_data_error chunks e

/-- Witness for C4: two chunks, an empty stream, and an error stream. -/
theorem read_concatenates_chunks_witness :
    sampleStore.read
        (fun _ => ([.data [1, 2], .data [3], .ended] : List (StreamEvent Nat)))
        { path := "f.jpg" } = some (.resolved [1, 2, 3]) ∧
    sampleStore.read (fun _ => ([.ended] : List (StreamEvent Nat)))
        { path := "f.jpg" } = some (.resolved []) ∧
    sampleStore.read
        (fun _ => ([.data [9], .error 7] : List (StreamEvent Nat)))
        { path := "f.jpg" } = some (.rejected 7) :=
  ⟨(read_concatenates_chunks sampleStore _ _ [[1, 2], [3]] 0).1 rfl,
   (read_concatenates_chunks sampleStore _ _ ([] : List (List Nat)) 0).2.1 rfl,
   (read_concatenates_chunks sampleStore _ _ [[9]] 7).2.2 rfl⟩

/-- C6: for save, exists and delete the path handed to the storage client is
backslash-free: normalization maps every backslash to a forward slash and
leaves other characters unchanged, and each operation passes a normalized
path to the client. -/
theorem paths_sent_no_backslashes {ε : Type} (g : GStore)
    (join : String → String → String) (query : String → String → Except ε Bool)
    (del : String → String → Except ε Unit)
    (filename u s : String) (targetDir : Option String) :
    normalizeChar '\\' = '/' ∧
    (normalizePathForGCS s).data = s.data.map normalizeChar ∧
    hasBackslash (normalizePathForGCS s) = false ∧
    hasBackslash ((g.save u).1.destination) = false ∧
    (∃ p, hasBackslash p = false ∧
      g.exists join query filename targetDir = query g.bucketHandle p) ∧
    (∃ p, hasBackslash p = false ∧
      g.delete join del filename targetDir =
        match del g.bucketHandle p with
        | .ok _ => .ok true
        | .error err => .error err) := by
  refine ⟨rfl, rfl, hasBackslash_normalize s, ?_, ?_, ?_⟩
  · rw [save_destination]
    exact hasBackslash_normalize u
  · exact ⟨_, hasBackslash_normalize _, rfl⟩
  · exact ⟨_, hasBackslash_normalize _, rfl⟩
